import Mathlib

/-
Verification of the kinematic and geometric core of a cycloidal
(epicycloidal pin-gear) reduction-mechanism simulator (src/main.js).

The mathematical core is embedded over the reals:
- `getCycloidPoint` mirrors the source function of the same name
  (the equidistant-epitrochoid profile generator with its epsilon
  fallback at a vanishing tangent);
- `drawPlacement` mirrors the mode branch of `draw` that computes
  `pinGroupAngle`, `discCenter` and `discRotation` from the input
  shaft angle;
- `ratioText`, `dirText`, `eccentricityFactor` and `undercutWarning`
  mirror the derived-quantity logic of `updateParams`.
-/

/-- Kinematic mode. The source stores it as the string `kinematics`,
either `STD` (spec name: FixedPins — housing fixed) or
`RV` (spec name: FixedCycloid — disc phase fixed). -/
inductive KinematicMode
  | STD
  | RV
deriving DecidableEq

/-- Gear parameters as read by `updateParams`: `R` (pitch radius, parseFloat),
`Zp` (pin count, parseInt — hence an integer), `rp` (pin radius, parseFloat),
`e` (eccentricity, parseFloat). -/
structure GearParams where
  R : ℝ
  Zp : ℤ
  rp : ℝ
  e : ℝ

/-- The validity range the spec requires callers to enforce:
`R > 0`, `Zp` integer `≥ 2`, `rp ≥ 0`, `e ≥ 0`. -/
def ValidParams (p : GearParams) : Prop :=
  0 < p.R ∧ 2 ≤ p.Zp ∧ 0 ≤ p.rp ∧ 0 ≤ p.e

/-- Variable `x0` of `getCycloidPoint`: base epitrochoid x-coordinate. -/
noncomputable def x0 (theta R Zp e : ℝ) : ℝ :=
  R * Real.cos theta - e * Real.cos (Zp * theta)

/-- Variable `y0` of `getCycloidPoint`: base epitrochoid y-coordinate. -/
noncomputable def y0 (theta R Zp e : ℝ) : ℝ :=
  R * Real.sin theta - e * Real.sin (Zp * theta)

/-- Variable `dxdt` of `getCycloidPoint`: derivative of `x0` with respect to `theta`. -/
noncomputable def dxdt (theta R Zp e : ℝ) : ℝ :=
  -R * Real.sin theta + e * Zp * Real.sin (Zp * theta)

/-- Variable `dydt` of `getCycloidPoint`: derivative of `y0` with respect to `theta`. -/
noncomputable def dydt (theta R Zp e : ℝ) : ℝ :=
  R * Real.cos theta - e * Zp * Real.cos (Zp * theta)

/-- Variable `len` of `getCycloidPoint`: length of the tangent vector. -/
noncomputable def tangentLen (theta R Zp e : ℝ) : ℝ :=
  Real.sqrt (dxdt theta R Zp e * dxdt theta R Zp e +
             dydt theta R Zp e * dydt theta R Zp e)

/-- Embedding of `getCycloidPoint(theta, R, Zp, rp, e)` (src/main.js):
the unoffset base point when the tangent length falls below `1e-6`,
otherwise the base point offset by `rp` along the normal
`(-dydt, dxdt) / len`. -/
noncomputable def getCycloidPoint (theta R Zp rp e : ℝ) : ℝ × ℝ :=
  if tangentLen theta R Zp e < 1e-6 then
    (x0 theta R Zp e, y0 theta R Zp e)
  else
    (x0 theta R Zp e + rp * (-(dydt theta R Zp e) / tangentLen theta R Zp e),
     y0 theta R Zp e + rp * (dxdt theta R Zp e / tangentLen theta R Zp e))

/-- Placement of the two bodies, recomputed each tick by `draw`. -/
structure Placement where
  pinGroupAngle : ℝ
  discCenter : ℝ × ℝ
  discRotation : ℝ

/-- Embedding of the kinematics branch of `draw` (src/main.js):
for `STD` (FixedPins) the pin group is static, the disc center orbits at
radius `e` and the disc counter-rotates by `rotationAngle / Zc` with
`Zc = Zp - 1`; for `RV` (FixedCycloid) the disc center orbits identically,
the disc rotation is pinned to `0` and the pin group rotates by
`rotationAngle / Zp`. -/
noncomputable def drawPlacement (kinematics : KinematicMode)
    (rotationAngle : ℝ) (p : GearParams) : Placement :=
  match kinematics with
  | .STD =>
      ⟨0,
       (p.e * Real.cos rotationAngle, p.e * Real.sin rotationAngle),
       -rotationAngle / ((p.Zp : ℝ) - 1)⟩
  | .RV =>
      ⟨rotationAngle / (p.Zp : ℝ),
       (p.e * Real.cos rotationAngle, p.e * Real.sin rotationAngle),
       0⟩

/-- Variable `K1` of `updateParams`: the dimensionless eccentricity factor
`e * Zp / R`. -/
noncomputable def eccentricityFactor (p : GearParams) : ℝ :=
  p.e * (p.Zp : ℝ) / p.R

/-- The reduction-ratio denominator `updateParams` displays:
`Zc = Zp - 1` in mode `STD`, `Zp` in mode `RV`. -/
def reductionRatio (kinematics : KinematicMode) (p : GearParams) : ℤ :=
  match kinematics with
  | .STD => p.Zp - 1
  | .RV => p.Zp

/-- The ratio text `updateParams` writes to the display:
`"1 : " + Zc` in mode `STD`, `"1 : " + Zp` in mode `RV`. -/
def ratioText (kinematics : KinematicMode) (p : GearParams) : String :=
  match kinematics with
  | .STD => "1 : " ++ toString (p.Zp - 1)
  | .RV => "1 : " ++ toString p.Zp

/-- The rotation-direction text `updateParams` writes to the display. -/
def dirText : KinematicMode → String
  | .STD => "反向 (Opposite)"
  | .RV => "同向 (Same)"

/-- The undercut-warning condition of `updateParams`: the warning banner
is shown exactly when `rp > (R / Zp) * 1.1 || K1 > 0.98`. -/
noncomputable def undercutWarning (p : GearParams) : Prop :=
  p.rp > p.R / (p.Zp : ℝ) * 1.1 ∨ eccentricityFactor p > 0.98

/-! ## Helper lemmas -/

/-- With `e = 0` the tangent length is `|R|`. -/
theorem tangentLen_e_zero (theta R Zp : ℝ) : tangentLen theta R Zp 0 = |R| := by
  unfold tangentLen dxdt dydt
  have h1 := Real.sin_sq_add_cos_sq theta
  have key : (-R * Real.sin theta + 0 * Zp * Real.sin (Zp * theta)) *
        (-R * Real.sin theta + 0 * Zp * Real.sin (Zp * theta)) +
      (R * Real.cos theta - 0 * Zp * Real.cos (Zp * theta)) *
        (R * Real.cos theta - 0 * Zp * Real.cos (Zp * theta)) = R ^ 2 := by
    linear_combination R ^ 2 * h1
  rw [key, Real.sqrt_sq_eq_abs]

/-! ## Claims -/

/-- C1. In mode `STD` (FixedPins), for every input angle and valid
parameters, the placement is exactly `pinGroupAngle = 0`,
`discCenter = (e·cos θ, e·sin θ)` and `discRotation = -θ / (Zp - 1)`. -/
theorem placement_STD (θ : ℝ) (p : GearParams) (hv : ValidParams p) :
    (drawPlacement .STD θ p).pinGroupAngle = 0 ∧
    (drawPlacement .STD θ p).discCenter =
      (p.e * Real.cos θ, p.e * Real.sin θ) ∧
    (drawPlacement .STD θ p).discRotation = -θ / ((p.Zp : ℝ) - 1) :=
  ⟨rfl, rfl, rfl⟩

/-- Witness for C1 at `θ = 0`, `(R, Zp, rp, e) = (80, 12, 5, 4)`. -/
theorem placement_STD_witness :
    ValidParams ⟨80, 12, 5, 4⟩ ∧
    ((drawPlacement .STD 0 ⟨80, 12, 5, 4⟩).pinGroupAngle = 0 ∧
     (drawPlacement .STD 0 ⟨80, 12, 5, 4⟩).discCenter =
       (4 * Real.cos 0, 4 * Real.sin 0) ∧
     (drawPlacement .STD 0 ⟨80, 12, 5, 4⟩).discRotation =
       -0 / (((12 : ℤ) : ℝ) - 1)) :=
  ⟨by constructor <;> norm_num, placement_STD 0 ⟨80, 12, 5, 4⟩
    (by constructor <;> norm_num)⟩

/-- C2. In mode `RV` (FixedCycloid), for every input angle and valid
parameters, the placement is exactly `discCenter = (e·cos θ, e·sin θ)`,
`discRotation = 0` and `pinGroupAngle = θ / Zp`. -/
theorem placement_RV (θ : ℝ) (p : GearParams) (hv : ValidParams p) :
    (drawPlacement .RV θ p).discCenter =
      (p.e * Real.cos θ, p.e * Real.sin θ) ∧
    (drawPlacement .RV θ p).discRotation = 0 ∧
    (drawPlacement .RV θ p).pinGroupAngle = θ / (p.Zp : ℝ) :=
  ⟨rfl, rfl, rfl⟩

/-- Witness for C2 at `θ = 0`, `(R, Zp, rp, e) = (80, 12, 5, 4)`. -/
theorem placement_RV_witness :
    ValidParams ⟨80, 12, 5, 4⟩ ∧
    ((drawPlacement .RV 0 ⟨80, 12, 5, 4⟩).discCenter =
       (4 * Real.cos 0, 4 * Real.sin 0) ∧
     (drawPlacement .RV 0 ⟨80, 12, 5, 4⟩).discRotation = 0 ∧
     (drawPlacement .RV 0 ⟨80, 12, 5, 4⟩).pinGroupAngle =
       0 / ((12 : ℤ) : ℝ)) :=
  ⟨by constructor <;> norm_num, placement_RV 0 ⟨80, 12, 5, 4⟩
    (by constructor <;> norm_num)⟩

/-- C5. The derived quantities depend only on the parameters and the mode:
the ratio denominator is `Zp - 1` with opposite-sense direction in mode
`STD` (FixedPins) and `Zp` with same-sense direction in mode `RV`
(FixedCycloid); for `Zp = 12` the displayed ratios are `1 : 11` and
`1 : 12`. -/
theorem derived_quantities :
    (∀ p : GearParams,
      reductionRatio .STD p = p.Zp - 1 ∧ reductionRatio .RV p = p.Zp ∧
      ratioText .STD p = "1 : " ++ toString (p.Zp - 1) ∧
      ratioText .RV p = "1 : " ++ toString p.Zp) ∧
    dirText .STD = "反向 (Opposite)" ∧ dirText .RV = "同向 (Same)" ∧
    ratioText .STD ⟨80, 12, 5, 4⟩ = "1 : 11" ∧
    ratioText .RV ⟨80, 12, 5, 4⟩ = "1 : 12" :=
  ⟨fun _ => ⟨rfl, rfl, rfl, rfl⟩, rfl, rfl, by decide, by decide⟩

/-- C4. The undercut warning holds iff `rp > 1.1 * (R / Zp)` or
`eccentricityFactor = e * Zp / R > 0.98`; for `(80, 12, 5, 4)` the factor
is `0.6` and the warning is off, and for `(80, 12, 5, 20)` the factor is
`3.0` and the warning is on. -/
theorem undercutWarning_iff :
    (∀ p : GearParams, undercutWarning p ↔
      (p.rp > 1.1 * (p.R / (p.Zp : ℝ)) ∨
       p.e * (p.Zp : ℝ) / p.R > 0.98)) ∧
    eccentricityFactor ⟨80, 12, 5, 4⟩ = 0.6 ∧
    ¬ undercutWarning ⟨80, 12, 5, 4⟩ ∧
    eccentricityFactor ⟨80, 12, 5, 20⟩ = 3 ∧
    undercutWarning ⟨80, 12, 5, 20⟩ := by
  refine ⟨fun p => ?_, ?_, ?_, ?_, ?_⟩
  · unfold undercutWarning eccentricityFactor
    rw [mul_comm (p.R / (p.Zp : ℝ)) 1.1]
  · unfold eccentricityFactor
    norm_num
  · unfold undercutWarning eccentricityFactor
    push_neg
    constructor <;> norm_num
  · unfold eccentricityFactor
    norm_num
  · unfold undercutWarning eccentricityFactor
    right
    norm_num

/-- C7. In both modes the disc center lies at distance exactly `e` from
the origin, and the disc center is identical across the two modes; only
`discRotation` and `pinGroupAngle` differ. -/
theorem discCenter_orbit (θ : ℝ) (p : GearParams) (h : ValidParams p) :
    Real.sqrt ((drawPlacement .STD θ p).discCenter.1 ^ 2 +
               (drawPlacement .STD θ p).discCenter.2 ^ 2) = p.e ∧
    Real.sqrt ((drawPlacement .RV θ p).discCenter.1 ^ 2 +
               (drawPlacement .RV θ p).discCenter.2 ^ 2) = p.e ∧
    (drawPlacement .STD θ p).discCenter =
      (drawPlacement .RV θ p).discCenter := by
  have he : 0 ≤ p.e := h.2.2.2
  have key : (p.e * Real.cos θ) ^ 2 + (p.e * Real.sin θ) ^ 2 = p.e ^ 2 := by
    have h1 := Real.sin_sq_add_cos_sq θ
    linear_combination p.e ^ 2 * h1
  have hs : Real.sqrt ((p.e * Real.cos θ) ^ 2 + (p.e * Real.sin θ) ^ 2)
      = p.e := by
    rw [key, Real.sqrt_sq he]
  exact ⟨hs, hs, rfl⟩

/-- Witness for C7 at `θ = 0`, `(R, Zp, rp, e) = (80, 12, 5, 4)`. -/
theorem discCenter_orbit_witness :
    ValidParams ⟨80, 12, 5, 4⟩ ∧
    (Real.sqrt ((drawPlacement .STD 0 ⟨80, 12, 5, 4⟩).discCenter.1 ^ 2 +
                (drawPlacement .STD 0 ⟨80, 12, 5, 4⟩).discCenter.2 ^ 2) = 4 ∧
     Real.sqrt ((drawPlacement .RV 0 ⟨80, 12, 5, 4⟩).discCenter.1 ^ 2 +
                (drawPlacement .RV 0 ⟨80, 12, 5, 4⟩).discCenter.2 ^ 2) = 4 ∧
     (drawPlacement .STD 0 ⟨80, 12, 5, 4⟩).discCenter =
       (drawPlacement .RV 0 ⟨80, 12, 5, 4⟩).discCenter) :=
  ⟨by constructor <;> norm_num, discCenter_orbit 0 ⟨80, 12, 5, 4⟩
    (by constructor <;> norm_num)⟩

/-- C8. When the tangent length falls below the `1e-6` threshold,
`getCycloidPoint` returns the unoffset base point `(x0, y0)` — the
function is total and performs no division by the vanishing length. -/
theorem getCycloidPoint_fallback (theta R Zp rp e : ℝ)
    (h : tangentLen theta R Zp e < 1e-6) :
    getCycloidPoint theta R Zp rp e =
      (R * Real.cos theta - e * Real.cos (Zp * theta),
       R * Real.sin theta - e * Real.sin (Zp * theta)) := by
  unfold getCycloidPoint
  rw [if_pos h]
  rfl

/-- Witness for C8 at `theta = 0`, `(R, Zp, rp, e) = (0, 2, 1, 0)`, where
the tangent length is `0`. -/
theorem getCycloidPoint_fallback_witness :
    tangentLen 0 0 2 0 < 1e-6 ∧
    getCycloidPoint 0 0 2 1 0 =
      (0 * Real.cos 0 - 0 * Real.cos (2 * 0),
       0 * Real.sin 0 - 0 * Real.sin (2 * 0)) := by
  have h : tangentLen 0 0 2 0 < 1e-6 := by
    rw [tangentLen_e_zero 0 0 2]
    norm_num
  exact ⟨h, getCycloidPoint_fallback 0 0 2 1 0 h⟩

/-- C10. For `rp = 0` the offset term vanishes and `getCycloidPoint`
returns exactly the base epitrochoid point on both branches. -/
theorem getCycloidPoint_rp_zero (theta R Zp e : ℝ) :
    getCycloidPoint theta R Zp 0 e =
      (R * Real.cos theta - e * Real.cos (Zp * theta),
       R * Real.sin theta - e * Real.sin (Zp * theta)) := by
  unfold getCycloidPoint
  split
  · rfl
  · unfold x0 y0
    ring_nf

/-- C3. On the regular branch (tangent length at least `1e-6`),
`getCycloidPoint` is the base epitrochoid point displaced by `rp` along
the unit normal `(-dydt, dxdt) / len` — the equidistant offset of the
base curve by the pin radius. -/
theorem getCycloidPoint_offset (theta : ℝ) (p : GearParams)
    (hv : ValidParams p)
    (h : 1e-6 ≤ tangentLen theta p.R (p.Zp : ℝ) p.e) :
    getCycloidPoint theta p.R (p.Zp : ℝ) p.rp p.e =
      (p.R * Real.cos theta - p.e * Real.cos ((p.Zp : ℝ) * theta) +
        p.rp * (-(p.R * Real.cos theta -
            p.e * (p.Zp : ℝ) * Real.cos ((p.Zp : ℝ) * theta)) /
          tangentLen theta p.R (p.Zp : ℝ) p.e),
       p.R * Real.sin theta - p.e * Real.sin ((p.Zp : ℝ) * theta) +
        p.rp * ((-p.R * Real.sin theta +
            p.e * (p.Zp : ℝ) * Real.sin ((p.Zp : ℝ) * theta)) /
          tangentLen theta p.R (p.Zp : ℝ) p.e)) := by
  unfold getCycloidPoint
  rw [if_neg (not_lt.mpr h)]
  rfl

/-- Witness for C3 at `theta = 0`, `(R, Zp, rp, e) = (80, 12, 5, 4)`,
where the tangent length is `32`. -/
theorem getCycloidPoint_offset_witness :
    ValidParams ⟨80, 12, 5, 4⟩ ∧
    1e-6 ≤ tangentLen 0 80 ((12 : ℤ) : ℝ) 4 ∧
    getCycloidPoint 0 80 ((12 : ℤ) : ℝ) 5 4 =
      (80 * Real.cos 0 - 4 * Real.cos (((12 : ℤ) : ℝ) * 0) +
        5 * (-(80 * Real.cos 0 -
            4 * ((12 : ℤ) : ℝ) * Real.cos (((12 : ℤ) : ℝ) * 0)) /
          tangentLen 0 80 ((12 : ℤ) : ℝ) 4),
       80 * Real.sin 0 - 4 * Real.sin (((12 : ℤ) : ℝ) * 0) +
        5 * ((-80 * Real.sin 0 +
            4 * ((12 : ℤ) : ℝ) * Real.sin (((12 : ℤ) : ℝ) * 0)) /
          tangentLen 0 80 ((12 : ℤ) : ℝ) 4)) := by
  have hlen : tangentLen 0 80 ((12 : ℤ) : ℝ) 4 = 32 := by
    unfold tangentLen dxdt dydt
    norm_num
    rw [show (1024 : ℝ) = 32 ^ 2 by norm_num, Real.sqrt_sq (by norm_num)]
  have h : (1e-6 : ℝ) ≤ tangentLen 0 80 ((12 : ℤ) : ℝ) 4 := by
    rw [hlen]; norm_num
  exact ⟨by constructor <;> norm_num, h,
    getCycloidPoint_offset 0 ⟨80, 12, 5, 4⟩ (by constructor <;> norm_num) h⟩

/-- C9. For integer `Zp ≥ 1`, `getCycloidPoint` is periodic in `theta`
with period `2π`. -/
theorem getCycloidPoint_periodic (theta R rp e : ℝ) (n : ℤ) (hn : 1 ≤ n) :
    getCycloidPoint (theta + 2 * Real.pi) R (n : ℝ) rp e =
      getCycloidPoint theta R (n : ℝ) rp e := by
  have harg : (n : ℝ) * (theta + 2 * Real.pi) =
      (n : ℝ) * theta + (n : ℝ) * (2 * Real.pi) := by ring
  have hx : x0 (theta + 2 * Real.pi) R (n : ℝ) e = x0 theta R (n : ℝ) e := by
    unfold x0
    rw [harg, Real.cos_add_int_mul_two_pi, Real.cos_add_two_pi]
  have hy : y0 (theta + 2 * Real.pi) R (n : ℝ) e = y0 theta R (n : ℝ) e := by
    unfold y0
    rw [harg, Real.sin_add_int_mul_two_pi, Real.sin_add_two_pi]
  have hdx : dxdt (theta + 2 * Real.pi) R (n : ℝ) e =
      dxdt theta R (n : ℝ) e := by
    unfold dxdt
    rw [harg, Real.sin_add_int_mul_two_pi, Real.sin_add_two_pi]
  have hdy : dydt (theta + 2 * Real.pi) R (n : ℝ) e =
      dydt theta R (n : ℝ) e := by
    unfold dydt
    rw [harg, Real.cos_add_int_mul_two_pi, Real.cos_add_two_pi]
  have hlen : tangentLen (theta + 2 * Real.pi) R (n : ℝ) e =
      tangentLen theta R (n : ℝ) e := by
    unfold tangentLen
    rw [hdx, hdy]
  unfold getCycloidPoint
  rw [hx, hy, hdx, hdy, hlen]

/-- Witness for C9 at `theta = 0`, `(R, Zp, rp, e) = (80, 12, 5, 4)`. -/
theorem getCycloidPoint_periodic_witness :
    1 ≤ (12 : ℤ) ∧
    getCycloidPoint (0 + 2 * Real.pi) 80 ((12 : ℤ) : ℝ) 5 4 =
      getCycloidPoint 0 80 ((12 : ℤ) : ℝ) 5 4 :=
  ⟨by decide, getCycloidPoint_periodic 0 80 5 4 12 (by decide)⟩

/-- C6 counterexample. The claim fails for `0 < R < 1e-6`: at
`(R, Zp, rp, e) = (1/10000000, 2, 1, 0)` — valid parameters — and
`theta = 0`, the tangent length is `R < 1e-6`, so the epsilon fallback
returns the unoffset base point `(R, 0)` instead of the circle point
`(R - rp, 0)`. -/
theorem circle_degeneration_cex :
    ValidParams ⟨1 / 10000000, 2, 1, 0⟩ ∧
    getCycloidPoint 0 (1 / 10000000) ((2 : ℤ) : ℝ) 1 0 ≠
      ((1 / 10000000 - 1) * Real.cos 0, (1 / 10000000 - 1) * Real.sin 0) := by
  refine ⟨by constructor <;> norm_num, ?_⟩
  have hlen : tangentLen 0 (1 / 10000000) ((2 : ℤ) : ℝ) 0 < 1e-6 := by
    rw [tangentLen_e_zero, abs_of_pos (by norm_num)]
    norm_num
  unfold getCycloidPoint
  rw [if_pos hlen]
  unfold x0 y0
  intro hcontra
  rw [Prod.mk.injEq] at hcontra
  have h1 := hcontra.1
  norm_num at h1

/-- C6 (amended). For `e = 0` and every `R` at least the `1e-6` epsilon
threshold (the counterexample shows the claim fails below it), every `Zp`
and every `rp ≥ 0`, the profile degenerates to the circle of radius
`R - rp`: `getCycloidPoint theta R Zp rp 0 =
((R - rp)·cos theta, (R - rp)·sin theta)`, independent of `Zp`. -/
theorem getCycloidPoint_circle (theta R Zp rp : ℝ)
    (hR : 1e-6 ≤ R) (hrp : 0 ≤ rp) :
    getCycloidPoint theta R Zp rp 0 =
      ((R - rp) * Real.cos theta, (R - rp) * Real.sin theta) := by
  have hR0 : (0 : ℝ) < R := lt_of_lt_of_le (by norm_num) hR
  have hlen : tangentLen theta R Zp 0 = R := by
    rw [tangentLen_e_zero, abs_of_pos hR0]
  unfold getCycloidPoint
  rw [hlen, if_neg (not_lt.mpr hR)]
  unfold x0 y0 dxdt dydt
  rw [Prod.mk.injEq]
  constructor
  · field_simp
    ring
  · field_simp
    ring

/-- Witness for the amended C6 at `theta = 0`,
`(R, Zp, rp) = (80, 12, 5)`. -/
theorem getCycloidPoint_circle_witness :
    (1e-6 : ℝ) ≤ 80 ∧ (0 : ℝ) ≤ 5 ∧
    getCycloidPoint 0 80 12 5 0 =
      ((80 - 5) * Real.cos 0, (80 - 5) * Real.sin 0) :=
  ⟨by norm_num, by norm_num,
    getCycloidPoint_circle 0 80 12 5 (by norm_num) (by norm_num)⟩
